import Mathlib

/-!
Verification of the `C2Ray_fstar` source-model pipeline
(`pyc2ray/c2ray_fstar.py`): halo-catalog ingestion, stellar-mass model,
grid projection, flux normalization, clumping factor, and the
initialization / resume routines.

Real numbers of the program are embedded as rationals `ℚ`; external
transcendental calls (log, 10^x, the Hubble parameter) are passed in as
abstract function or scalar parameters; numpy reductions that raise on
empty arrays return `Except`; Python local variables that may be unbound
at a use site are `Option`s, and a use of an unbound one is an
`UnboundLocalError` value.
-/

namespace PyC2Ray

/-- Python exceptions the embedded fragments can raise. -/
inductive PyExc where
  | valueError : PyExc
  | unboundLocalError : PyExc
  | attributeError : PyExc
deriving DecidableEq, Repr

/-- A 3-D grid-cell index. -/
abbrev Cell := ℤ × ℤ × ℤ

/-! ## GridProjector (Halo2Grid)

Modelled from the spec: the `Halo2Grid` class used by `ionizing_flux`
(`hg.value_on_grid` / `hg.halo_value_on_grid`) lives in
`pyc2ray/source_model.py`, which is not among the provided sources.
Spec §4.3: cell assignment is `floor(position / (boxsize/N))` per axis,
and the output is a sparse list with exactly one entry per distinct
occupied cell, each entry holding the sum of the input quantity over
the halos mapping to that cell, in first-occupied-cell order. -/

/-- Modelled from the spec: per-axis cell assignment
`floor(position / (boxsize/N))` (spec §4.3). -/
def cellOfPos (boxsize : ℚ) (N : ℕ) (p : ℚ × ℚ × ℚ) : Cell :=
  (⌊p.1 / (boxsize / N)⌋, ⌊p.2.1 / (boxsize / N)⌋, ⌊p.2.2 / (boxsize / N)⌋)

/-- Modelled from the spec: add one (cell, value) pair to the sparse
accumulator, summing into the existing entry for that cell when there is
one and appending a fresh entry otherwise (spec §4.3: "summed, not
overwritten", first-occupied-cell order). -/
def addToGrid : List (Cell × ℚ) → Cell × ℚ → List (Cell × ℚ)
  | [], cv => [cv]
  | e :: rest, cv =>
      if e.1 = cv.1 then (e.1, e.2 + cv.2) :: rest else e :: addToGrid rest cv

/-- Modelled from the spec: the sparse binning of a list of
(cell, value) pairs (spec §4.3, `value_on_grid`). -/
def valueOnGrid (halos : List (Cell × ℚ)) : List (Cell × ℚ) :=
  halos.foldl addToGrid []

/-- Modelled from the spec: the full projection `Halo2Grid` performs in
`ionizing_flux`: assign each halo a cell, then aggregate values per
cell. -/
def halo2grid (boxsize : ℚ) (N : ℕ) (halos : List ((ℚ × ℚ × ℚ) × ℚ)) :
    List (Cell × ℚ) :=
  valueOnGrid (halos.map (fun hl => (cellOfPos boxsize N hl.1, hl.2)))

/-- The sum of the values carried by the pairs of `l` whose cell is `c`. -/
def cellValue (c : Cell) : List (Cell × ℚ) → ℚ
  | [] => 0
  | e :: rest => (if e.1 = c then e.2 else 0) + cellValue c rest

lemma addToGrid_map_fst (acc : List (Cell × ℚ)) (cv : Cell × ℚ) :
    (addToGrid acc cv).map Prod.fst =
      if cv.1 ∈ acc.map Prod.fst then acc.map Prod.fst
      else acc.map Prod.fst ++ [cv.1] := by
  induction acc with
  | nil => simp [addToGrid]
  | cons e rest ih =>
      by_cases h : e.1 = cv.1
      · simp [addToGrid, h]
      · have h' : ¬ cv.1 = e.1 := fun hh => h hh.symm
        by_cases hm : cv.1 ∈ rest.map Prod.fst
        · simp [addToGrid, h, ih, hm, h']
        · simp [addToGrid, h, ih, hm, h']

lemma addToGrid_nodup (acc : List (Cell × ℚ)) (cv : Cell × ℚ)
    (h : (acc.map Prod.fst).Nodup) : ((addToGrid acc cv).map Prod.fst).Nodup := by
  rw [addToGrid_map_fst]
  by_cases hm : cv.1 ∈ acc.map Prod.fst
  · simpa [hm] using h
  · rw [if_neg hm]
    refine h.append (List.nodup_singleton _) ?_
    intro a ha hb
    rw [List.mem_singleton] at hb
    subst hb
    exact hm ha

lemma addToGrid_mem_fst (acc : List (Cell × ℚ)) (cv : Cell × ℚ) (c : Cell) :
    c ∈ (addToGrid acc cv).map Prod.fst ↔
      c ∈ acc.map Prod.fst ∨ c = cv.1 := by
  rw [addToGrid_map_fst]
  by_cases hm : cv.1 ∈ acc.map Prod.fst
  · simp only [hm, if_true]
    constructor
    · exact fun h => Or.inl h
    · rintro (h | rfl)
      · exact h
      · exact hm
  · simp [hm]

lemma cellValue_addToGrid (acc : List (Cell × ℚ)) (cv : Cell × ℚ) (c : Cell) :
    cellValue c (addToGrid acc cv) =
      cellValue c acc + (if cv.1 = c then cv.2 else 0) := by
  induction acc with
  | nil => simp [addToGrid, cellValue]
  | cons e rest ih =>
      by_cases h : e.1 = cv.1
      · by_cases hc : e.1 = c
        · have hc' : cv.1 = c := h ▸ hc
          simp [addToGrid, cellValue, h, hc, hc']
          ring
        · have hc' : ¬ cv.1 = c := fun hh => hc (h ▸ hh)
          simp [addToGrid, cellValue, h, hc, hc']
      · simp [addToGrid, cellValue, h, ih]
        ring

lemma map_snd_sum_addToGrid (acc : List (Cell × ℚ)) (cv : Cell × ℚ) :
    ((addToGrid acc cv).map Prod.snd).sum = (acc.map Prod.snd).sum + cv.2 := by
  induction acc with
  | nil => simp [addToGrid]
  | cons e rest ih =>
      by_cases h : e.1 = cv.1
      · simp [addToGrid, h]
        ring
      · simp [addToGrid, h, ih]
        ring

lemma cellValue_eq_zero_of_not_mem (c : Cell) (l : List (Cell × ℚ))
    (h : c ∉ l.map Prod.fst) : cellValue c l = 0 := by
  induction l with
  | nil => rfl
  | cons e rest ih =>
      have he : ¬ e.1 = c := by
        intro hh
        exact h (by simp [hh])
      have hr : c ∉ rest.map Prod.fst := fun hh => h (by simp [hh])
      simp [cellValue, he, ih hr]

lemma cellValue_of_mem (l : List (Cell × ℚ)) (e : Cell × ℚ)
    (hnd : (l.map Prod.fst).Nodup) (he : e ∈ l) : cellValue e.1 l = e.2 := by
  induction l with
  | nil => cases he
  | cons x rest ih =>
      rw [List.map_cons, List.nodup_cons] at hnd
      obtain ⟨hx1, hnd'⟩ := hnd
      rcases List.mem_cons.mp he with rfl | hmem
      · have hz : cellValue e.1 rest = 0 := cellValue_eq_zero_of_not_mem _ _ hx1
        simp [cellValue, hz]
      · have hx : ¬ x.1 = e.1 := by
          intro hEq
          exact hx1 (hEq ▸ List.mem_map_of_mem Prod.fst hmem)
        simp [cellValue, hx, ih hnd' hmem]

lemma foldl_addToGrid_nodup (l : List (Cell × ℚ)) :
    ∀ acc : List (Cell × ℚ), (acc.map Prod.fst).Nodup →
      ((l.foldl addToGrid acc).map Prod.fst).Nodup := by
  induction l with
  | nil => intro acc h; simpa using h
  | cons cv rest ih =>
      intro acc h
      exact ih (addToGrid acc cv) (addToGrid_nodup acc cv h)

lemma foldl_addToGrid_mem (l : List (Cell × ℚ)) :
    ∀ acc : List (Cell × ℚ), ∀ c : Cell,
      (c ∈ (l.foldl addToGrid acc).map Prod.fst ↔
        c ∈ acc.map Prod.fst ∨ c ∈ l.map Prod.fst) := by
  induction l with
  | nil => intro acc c; simp
  | cons cv rest ih =>
      intro acc c
      rw [List.foldl_cons, ih (addToGrid acc cv) c]
      rw [addToGrid_mem_fst]
      simp only [List.map_cons, List.mem_cons]
      tauto

lemma foldl_addToGrid_cellValue (l : List (Cell × ℚ)) :
    ∀ acc : List (Cell × ℚ), ∀ c : Cell,
      cellValue c (l.foldl addToGrid acc) = cellValue c acc + cellValue c l := by
  induction l with
  | nil => intro acc c; simp [cellValue]
  | cons cv rest ih =>
      intro acc c
      rw [List.foldl_cons, ih (addToGrid acc cv) c, cellValue_addToGrid]
      simp only [cellValue]
      ring

lemma foldl_addToGrid_sum (l : List (Cell × ℚ)) :
    ∀ acc : List (Cell × ℚ),
      ((l.foldl addToGrid acc).map Prod.snd).sum =
        (acc.map Prod.snd).sum + (l.map Prod.snd).sum := by
  induction l with
  | nil => intro acc; simp
  | cons cv rest ih =>
      intro acc
      rw [List.foldl_cons, ih (addToGrid acc cv), map_snd_sum_addToGrid]
      simp only [List.map_cons, List.sum_cons]
      ring

lemma valueOnGrid_nodup (l : List (Cell × ℚ)) :
    ((valueOnGrid l).map Prod.fst).Nodup :=
  foldl_addToGrid_nodup l [] (by simp)

lemma valueOnGrid_mem (l : List (Cell × ℚ)) (c : Cell) :
    c ∈ (valueOnGrid l).map Prod.fst ↔ c ∈ l.map Prod.fst := by
  rw [valueOnGrid, foldl_addToGrid_mem l [] c]
  simp

lemma valueOnGrid_cellValue (l : List (Cell × ℚ)) (c : Cell) :
    cellValue c (valueOnGrid l) = cellValue c l := by
  rw [valueOnGrid, foldl_addToGrid_cellValue l [] c]
  simp [cellValue]

lemma valueOnGrid_sum (l : List (Cell × ℚ)) :
    ((valueOnGrid l).map Prod.snd).sum = (l.map Prod.snd).sum := by
  rw [valueOnGrid, foldl_addToGrid_sum l []]
  simp

lemma valueOnGrid_entry_eq (l : List (Cell × ℚ)) (e : Cell × ℚ)
    (he : e ∈ valueOnGrid l) : e.2 = cellValue e.1 l := by
  rw [← valueOnGrid_cellValue]
  exact (cellValue_of_mem (valueOnGrid l) e (valueOnGrid_nodup l) he).symm

/-- C1: projecting per-halo values onto the grid (the Halo2Grid binning
invoked by `ionizing_flux`) yields exactly one entry per distinct
occupied cell, each entry's aggregated value is the sum of the input
quantity over all halos mapping to that cell, and the sum of aggregated
values over occupied cells equals the sum of the per-halo input
values. -/
theorem C1_grid_projection_mass_conservation (boxsize : ℚ) (N : ℕ)
    (halos : List ((ℚ × ℚ × ℚ) × ℚ)) :
    ((halo2grid boxsize N halos).map Prod.fst).Nodup
    ∧ (∀ c : Cell, c ∈ (halo2grid boxsize N halos).map Prod.fst ↔
        c ∈ halos.map (fun hl => cellOfPos boxsize N hl.1))
    ∧ (∀ e ∈ halo2grid boxsize N halos,
        e.2 = cellValue e.1 (halos.map (fun hl => (cellOfPos boxsize N hl.1, hl.2))))
    ∧ ((halo2grid boxsize N halos).map Prod.snd).sum = (halos.map Prod.snd).sum := by
  refine ⟨valueOnGrid_nodup _, fun c => ?_, fun e he => valueOnGrid_entry_eq _ e he, ?_⟩
  · rw [halo2grid, valueOnGrid_mem]
    simp [List.mem_map]
  · rw [halo2grid, valueOnGrid_sum, List.map_map]
    rfl

/-! ## numpy reductions

`ndarray.min()` / `ndarray.max()` raise `ValueError` on a zero-size
array; `mean` is the sum divided by the length. -/

/-- `ndarray.min()`: `ValueError` on a zero-size array. -/
def npMin : List ℚ → Except PyExc ℚ
  | [] => .error .valueError
  | x :: xs => .ok (xs.foldl min x)

/-- `ndarray.max()`: `ValueError` on a zero-size array. -/
def npMax : List ℚ → Except PyExc ℚ
  | [] => .error .valueError
  | x :: xs => .ok (xs.foldl max x)

/-- `ndarray.mean()`: sum over length (`ℚ` division is total). -/
def npMean (l : List ℚ) : ℚ := l.sum / l.length

/-! ## ionizing_flux: flux normalization and the rank-gated tail

From `c2ray_fstar.py` lines 127-139.  `S_star_ref = 1e48`;
`ts = 1. / (self.alph_h * (1+z) * self.cosmology.H(z=z).cgs.value)`;
`normflux = msun2g * self.fstar_dpl['Nion'] * srcmstar / (m_p * ts * S_star_ref)`;
then `if(self.rank == 0):` a diagnostic block whose print statements
evaluate `srcmstar.min()`, `srcmstar.max()`, `normflux.min()`,
`normflux.mean()`, `normflux.max()`, and — still inside that `if` —
`return srcpos, normflux`.  A Python method that falls off its end
returns `None`, hence the `Option` in the result type. -/

/-- The constants `self.alph_h`, the external cosmology value
`self.cosmology.H(z).cgs.value`, `self.fstar_dpl['Nion']`, and the
imported unit constants `msun2g` and `m_p`, all treated as abstract
rational parameters. -/
structure FluxParams where
  rank : ℕ
  alph_h : ℚ
  Hz : ℚ
  Nion : ℚ
  msun2g : ℚ
  m_p : ℚ
deriving DecidableEq, Repr

/-- `S_star_ref = 1e48` (reference luminosity in photons per second). -/
def S_star_ref : ℚ := 10 ^ 48

/-- `ts = 1. / (self.alph_h * (1+z) * self.cosmology.H(z=z).cgs.value)`. -/
def sourceLifetime (alph_h z Hz : ℚ) : ℚ := 1 / (alph_h * (1 + z) * Hz)

/-- One entry of `normflux = msun2g * Nion * srcmstar / (m_p * ts * S_star_ref)`. -/
def normfluxOf (msun2g Nion m_p ts m : ℚ) : ℚ :=
  msun2g * Nion * m / (m_p * ts * S_star_ref)

/-- The tail of `ionizing_flux` after binning: compute `ts` and
`normflux`, then the rank-0 diagnostic block (whose reductions raise on
empty arrays) ending in the indented `return srcpos, normflux`; any
other rank falls off the method and yields `None`. -/
def ionizingFluxTail (p : FluxParams) (z : ℚ) (srcpos : List Cell)
    (srcmstar : List ℚ) : Except PyExc (Option (List Cell × List ℚ)) :=
  let ts := sourceLifetime p.alph_h z p.Hz
  let normflux := srcmstar.map (normfluxOf p.msun2g p.Nion p.m_p ts)
  if p.rank = 0 then
    match npMin srcmstar, npMax srcmstar, npMin normflux, npMax normflux with
    | .ok _, .ok _, .ok _, .ok _ => .ok (some (srcpos, normflux))
    | _, _, _, _ => .error .valueError
  else
    .ok none

/-- C2: the claim says the returned `(srcpos, normflux)` is identical
across ranks, rank gating only diagnostics.  In the code the `return`
statement is indented inside the `if(self.rank == 0):` block, so on the
same one-source catalog rank 0 returns the pair while rank 1 returns
`None`. -/
theorem C2_rank_changes_return_value :
    ionizingFluxTail ⟨0, 1, 1, 1, 1, 1⟩ 0 [(0, 0, 0)] [1]
      = .ok (some ([(0, 0, 0)], [1 / S_star_ref]))
    ∧ ionizingFluxTail ⟨1, 1, 1, 1, 1, 1⟩ 0 [(0, 0, 0)] [1] = .ok none
    ∧ ionizingFluxTail ⟨0, 1, 1, 1, 1, 1⟩ 0 [(0, 0, 0)] [1]
        ≠ ionizingFluxTail ⟨1, 1, 1, 1, 1, 1⟩ 0 [(0, 0, 0)] [1] := by
  refine ⟨?_, rfl, ?_⟩
  · show Except.ok (some ([(0, 0, 0)], [normfluxOf 1 1 1 (sourceLifetime 1 0 1) 1]))
      = Except.ok (some ([(0, 0, 0)], [1 / S_star_ref]))
    norm_num [normfluxOf, sourceLifetime]
  · intro h
    rw [show ionizingFluxTail ⟨1, 1, 1, 1, 1, 1⟩ 0 [(0, 0, 0)] [1] = .ok none from rfl] at h
    exact Option.noConfusion (Except.ok.inj h)

/-- C4: for a rank-0 process with a nonempty source list, the tail of
`ionizing_flux` returns exactly the pair of the source positions and the
per-cell normalized fluxes `msun2g * Nion * m / (m_p * ts * 1e48)` with
`ts = 1 / (alph_h * (1+z) * H(z))`. -/
theorem C4_flux_normalization (p : FluxParams) (z : ℚ) (srcpos : List Cell)
    (srcmstar : List ℚ) (hrank : p.rank = 0) (hne : srcmstar ≠ []) :
    sourceLifetime p.alph_h z p.Hz = 1 / (p.alph_h * (1 + z) * p.Hz)
    ∧ ionizingFluxTail p z srcpos srcmstar
        = .ok (some (srcpos, srcmstar.map (fun m =>
            p.msun2g * p.Nion * m /
              (p.m_p * sourceLifetime p.alph_h z p.Hz * (10 ^ 48 : ℚ))))) := by
  refine ⟨rfl, ?_⟩
  obtain ⟨m0, ms, rfl⟩ : ∃ m0 ms, srcmstar = m0 :: ms := by
    cases srcmstar with
    | nil => exact absurd rfl hne
    | cons m0 ms => exact ⟨m0, ms, rfl⟩
  simp only [ionizingFluxTail, hrank, if_pos rfl, List.map_cons, npMin, npMax]
  rfl

/-- C4 witness at a concrete input. -/
theorem C4_flux_normalization_witness :
    sourceLifetime 1 0 1 = 1 / (1 * (1 + 0) * 1)
    ∧ ionizingFluxTail ⟨0, 1, 1, 1, 1, 1⟩ 0 [(0, 0, 0)] [1]
        = .ok (some ([(0, 0, 0)], [1].map (fun m =>
            (1 : ℚ) * 1 * m / (1 * sourceLifetime 1 0 1 * (10 ^ 48 : ℚ))))) :=
  C4_flux_normalization ⟨0, 1, 1, 1, 1, 1⟩ 0 [(0, 0, 0)] [1] rfl (by simp)

/-- C8 counterexample: on a zero-source catalog a rank-0 invocation of
the `ionizing_flux` tail raises `ValueError` (empty-array `min()`)
instead of returning a well-formed empty result. -/
theorem C8_empty_catalog_raises :
    ionizingFluxTail ⟨0, 1, 1, 1, 1, 1⟩ 0 [] [] = .error .valueError := rfl

/-- C8 amended: on a zero-source catalog `ionizing_flux` does not return
a well-formed empty result: the reporting rank raises `ValueError` in
the diagnostic reductions, and every other rank returns `None`. -/
theorem C8_empty_catalog_behaviour (p : FluxParams) (z : ℚ) (srcpos : List Cell) :
    ionizingFluxTail p z srcpos []
      = if p.rank = 0 then .error .valueError else .ok none := by
  by_cases h : p.rank = 0
  · simp [ionizingFluxTail, h, npMin, npMax]
  · simp [ionizingFluxTail, h]

/-! ## read_haloes, `.txt` branch

From `c2ray_fstar.py` lines 170-179:
`srcpos_mpc = (hl[:,1:] + self.boxsize/2)`; then two sequential masked
in-place updates —
`srcpos_mpc[srcpos_mpc > self.boxsize] = self.boxsize - srcpos_mpc[...]`
and `srcpos_mpc[srcpos_mpc < 0.] = self.boxsize + srcpos_mpc[...]` —
and finally `srcpos_mpc /= self.cosmology.h`.  The updates act
coordinatewise, and the second mask is evaluated on the array already
changed by the first. -/

/-- The shift `x + boxsize/2` applied to a raw `.txt` coordinate. -/
def txtShift (boxsize x : ℚ) : ℚ := x + boxsize / 2

/-- First masked update: a coordinate strictly above `boxsize` becomes
`boxsize - coordinate`. -/
def txtMask1 (boxsize x : ℚ) : ℚ := if boxsize < x then boxsize - x else x

/-- Second masked update, on the result of the first: a coordinate
strictly below `0` becomes `boxsize + coordinate`. -/
def txtMask2 (boxsize x : ℚ) : ℚ := if x < 0 then boxsize + x else x

/-- The composite periodic wrap the two sequential masked updates
perform on one coordinate. -/
def txtWrap (boxsize x : ℚ) : ℚ := txtMask2 boxsize (txtMask1 boxsize x)

/-- The `.txt` branch of `read_haloes`: rows are `[mass, x, y, z]`;
masses are divided by `h`; positions are shifted by `boxsize/2`,
wrapped, and divided by `h`. -/
def readHaloesTxt (boxsize h : ℚ) (rows : List (ℚ × (ℚ × ℚ × ℚ))) :
    List (ℚ × ℚ × ℚ) × List ℚ :=
  (rows.map (fun r =>
      (txtWrap boxsize (txtShift boxsize r.2.1) / h,
       txtWrap boxsize (txtShift boxsize r.2.2.1) / h,
       txtWrap boxsize (txtShift boxsize r.2.2.2) / h)),
   rows.map (fun r => r.1 / h))

/-- C3 counterexample: the claim derives `wrap(-δ) = boxsize + δ`, but
for `boxsize = 10`, `δ = 3` the code wraps `-3` to `10 + (-3) = 7`, not
`13`. -/
theorem C3_wrap_negative_counterexample :
    txtWrap 10 (-3) = 7 ∧ txtWrap 10 (-3) ≠ 10 + 3 := by
  constructor
  · norm_num [txtWrap, txtMask1, txtMask2]
  · norm_num [txtWrap, txtMask1, txtMask2]

/-- C3 amended: each masked update maps a coordinate above `boxsize` to
`boxsize - coordinate` and a (then) negative coordinate to
`boxsize + coordinate`; for `0 < δ < boxsize` the composite wrap sends
`boxsize + δ` to `boxsize - δ` (via the intermediate `-δ`) and `-δ` to
`boxsize - δ` (not `boxsize + δ`); wrapped positions are divided by
`h`. -/
theorem C3_txt_wrap_amended (boxsize h δ : ℚ) (h1 : 0 < δ) (h2 : δ < boxsize) :
    txtWrap boxsize (boxsize + δ) = boxsize - δ
    ∧ txtWrap boxsize (-δ) = boxsize - δ
    ∧ (∀ x, boxsize < x → txtMask1 boxsize x = boxsize - x)
    ∧ (∀ x, x < 0 → txtMask2 boxsize x = boxsize + x)
    ∧ (∀ rows, (readHaloesTxt boxsize h rows).1 = rows.map (fun r =>
        (txtWrap boxsize (r.2.1 + boxsize / 2) / h,
         txtWrap boxsize (r.2.2.1 + boxsize / 2) / h,
         txtWrap boxsize (r.2.2.2 + boxsize / 2) / h))) := by
  have hb : 0 < boxsize := h1.trans h2
  refine ⟨?_, ?_, fun x hx => if_pos hx, fun x hx => if_pos hx, fun rows => rfl⟩
  · have ha : boxsize < boxsize + δ := by linarith
    have hs : boxsize - (boxsize + δ) < 0 := by linarith
    rw [txtWrap, txtMask1, if_pos ha, txtMask2, if_pos hs]
    ring
  · have ha : ¬ boxsize < -δ := by linarith
    have hs : -δ < 0 := by linarith
    rw [txtWrap, txtMask1, if_neg ha, txtMask2, if_pos hs]
    ring

/-- C3 witness: the amended wrap at `boxsize = 10`, `h = 2`, `δ = 3`. -/
theorem C3_txt_wrap_amended_witness :
    txtWrap 10 (10 + 3) = 10 - 3 ∧ txtWrap 10 (-3) = 10 - 3 :=
  ⟨(C3_txt_wrap_amended 10 2 3 (by norm_num) (by norm_num)).1,
   (C3_txt_wrap_amended 10 2 3 (by norm_num) (by norm_num)).2.1⟩

/-! ## fstar_model

From `c2ray_fstar.py` lines 52-73.  The branch on
`kind.lower()` binds the local variables `fstar` and `fesc`:
the `fgamma` family binds only `fstar = Ob0/Om0` (a scalar, broadcast);
the `dpl` family binds both from the external `SourceModel` (from
`pyc2ray/source_model.py`, abstracted here as two function parameters);
any other kind prints a message and binds neither.  The shared
`return fstar, fesc` then raises `UnboundLocalError` whenever one of the
two locals is unbound. -/

/-- A value a branch of `fstar_model` binds: a scalar broadcast over all
halos, or a per-halo array. -/
inductive FVal where
  | const (q : ℚ) : FVal
  | arr (l : List ℚ) : FVal
deriving DecidableEq, Repr

/-- Lower-case an ASCII letter (the configuration strings compared here
are ASCII). -/
def lowerChar (c : Char) : Char :=
  if 65 ≤ c.toNat ∧ c.toNat ≤ 90 then Char.ofNat (c.toNat + 32) else c

/-- Python `str.lower()` on the ASCII configuration strings used here. -/
def pyLower (s : String) : String := ⟨s.data.map lowerChar⟩

/-- The kinds selecting the mass-independent branch. -/
def fgammaKinds : List String := ["fgamma", "f_gamma", "mass_independent"]

/-- The kinds selecting the double-power-law branch. -/
def dplKinds : List String := ["dpl", "mass_dependent"]

/-- The local variable `fstar` as bound (or not) by the branch taken. -/
def fstarLocal (Ob0 Om0 : ℚ) (dplFstar : List ℚ → List ℚ)
    (kind : String) (mhalo : List ℚ) : Option FVal :=
  if pyLower kind ∈ fgammaKinds then some (.const (Ob0 / Om0))
  else if pyLower kind ∈ dplKinds then some (.arr (dplFstar mhalo))
  else none

/-- The local variable `fesc` as bound (or not) by the branch taken:
only the double-power-law branch assigns it. -/
def fescLocal (dplFesc : List ℚ → List ℚ) (kind : String) (mhalo : List ℚ) :
    Option FVal :=
  if pyLower kind ∈ dplKinds then some (.arr (dplFesc mhalo)) else none

/-- `fstar_model`: the branch bindings followed by
`return fstar, fesc`, which raises `UnboundLocalError` if either local
is unbound. -/
def fstar_model (Ob0 Om0 : ℚ) (dplFstar dplFesc : List ℚ → List ℚ)
    (kind : String) (mhalo : List ℚ) : Except PyExc (FVal × FVal) :=
  match fstarLocal Ob0 Om0 dplFstar kind mhalo, fescLocal dplFesc kind mhalo with
  | some fs, some fe => .ok (fs, fe)
  | _, _ => .error .unboundLocalError

/-- C7 counterexample: with `kind = "fgamma"` the call does not yield
`fstar`; it raises `UnboundLocalError` at `return fstar, fesc`. -/
theorem C7_fgamma_counterexample :
    fstar_model 1 2 id id "fgamma" [5] = .error .unboundLocalError := by
  rfl

/-- C7 amended: for `kind` in {fgamma, f_gamma, mass_independent}
(case-insensitive) the branch binds `fstar` to the baryon fraction
`Ob0/Om0` broadcast over all halos and binds no `fesc`, so the shared
`return fstar, fesc` raises `UnboundLocalError` and the call returns
nothing to the caller. -/
theorem C7_fgamma_branch_amended (Ob0 Om0 : ℚ) (dplFstar dplFesc : List ℚ → List ℚ)
    (kind : String) (mhalo : List ℚ) (h : pyLower kind ∈ fgammaKinds) :
    fstarLocal Ob0 Om0 dplFstar kind mhalo = some (.const (Ob0 / Om0))
    ∧ fescLocal dplFesc kind mhalo = none
    ∧ fstar_model Ob0 Om0 dplFstar dplFesc kind mhalo = .error .unboundLocalError := by
  have hnot : pyLower kind ∉ dplKinds := by
    simp [fgammaKinds] at h
    rcases h with h | h | h <;>
      simp [dplKinds, h]
  have hf : fstarLocal Ob0 Om0 dplFstar kind mhalo = some (.const (Ob0 / Om0)) := by
    simp [fstarLocal, h]
  have he : fescLocal dplFesc kind mhalo = none := by
    simp [fescLocal, hnot]
  refine ⟨hf, he, ?_⟩
  rw [fstar_model, hf, he]

/-- C7 witness: the amended statement at `kind = "FGamma"` (the match is
case-insensitive), `Ob0 = 1`, `Om0 = 2`. -/
theorem C7_fgamma_branch_amended_witness :
    fstarLocal 1 2 id "FGamma" [5] = some (.const (1 / 2))
    ∧ fescLocal id "FGamma" [5] = none
    ∧ fstar_model 1 2 id id "FGamma" [5] = .error .unboundLocalError :=
  C7_fgamma_branch_amended 1 2 id id "FGamma" [5] (by decide)

/-! ## read_clumping

From `c2ray_fstar.py` lines 202-237.  `find_bins` (from
`pyc2ray/utils/other_utils.py`, not among the provided sources) supplies
the bracketing pair `(zlow, zhigh)`, which is taken as an input here.
`np.log` and the power `10**(...)` are transcendental; they are passed
in as abstract function parameters `ln` and `pow10`. -/

/-- The coefficient row `(a, b, c)` of one redshift knot of the clumping
parameter table. -/
structure ClumpRow where
  a : ℚ
  b : ℚ
  c : ℚ
deriving DecidableEq, Repr

/-- `w_l, w_h = (z-zlow)/(zhigh - zlow), (zhigh-z)/(zhigh - zlow)`. -/
def clumpWeights (z zlow zhigh : ℚ) : ℚ × ℚ :=
  ((z - zlow) / (zhigh - zlow), (zhigh - z) / (zhigh - zlow))

/-- `df.loc[zlow]*w_l + df.loc[zhigh]*w_h`, componentwise on the row
`(a, b, c)`. -/
def rowCombine (w_l w_h : ℚ) (rl rh : ClumpRow) : ClumpRow :=
  ⟨w_l * rl.a + w_h * rh.a, w_l * rl.b + w_h * rh.b, w_l * rl.c + w_h * rh.c⟩

/-- `read_clumping` after the table lookup: weights, weighted
coefficients, `x = np.log(1 + ndens/ndens.mean())`,
`clump = 10**(a*x**2 + b*x**2 + c)`, then `self.ndens *= clump`.
Returns the pair (new `self.ndens`, returned `clump`). -/
def read_clumping (ln pow10 : ℚ → ℚ) (z zlow zhigh : ℚ) (rl rh : ClumpRow)
    (ndens : List ℚ) : List ℚ × List ℚ :=
  let w := clumpWeights z zlow zhigh
  let p := rowCombine w.1 w.2 rl rh
  let m := npMean ndens
  let clump := ndens.map (fun d =>
    pow10 (p.a * ln (1 + d / m) ^ 2 + p.b * ln (1 + d / m) ^ 2 + p.c))
  (List.zipWith (· * ·) ndens clump, clump)

/-- C5: the interpolation weights are `(z-zlow)/(zhigh-zlow)` on the low
row and `(zhigh-z)/(zhigh-zlow)` on the high row and sum to 1; the
coefficients are the weighted row combination; the returned clumping
factor is `10^(a*x^2 + b*x^2 + c)` of `x = ln(1 + density/mean density)`
per cell, with the `x^2` term twice; and the stored density field is
multiplied elementwise by the clumping factor. -/
theorem C5_read_clumping (ln pow10 : ℚ → ℚ) (z zlow zhigh : ℚ)
    (rl rh : ClumpRow) (ndens : List ℚ) (hz : zhigh ≠ zlow) :
    clumpWeights z zlow zhigh
      = ((z - zlow) / (zhigh - zlow), (zhigh - z) / (zhigh - zlow))
    ∧ (clumpWeights z zlow zhigh).1 + (clumpWeights z zlow zhigh).2 = 1
    ∧ (read_clumping ln pow10 z zlow zhigh rl rh ndens).2
        = ndens.map (fun d =>
            pow10 ((rowCombine (clumpWeights z zlow zhigh).1
                      (clumpWeights z zlow zhigh).2 rl rh).a
                     * ln (1 + d / npMean ndens) ^ 2
                   + (rowCombine (clumpWeights z zlow zhigh).1
                      (clumpWeights z zlow zhigh).2 rl rh).b
                     * ln (1 + d / npMean ndens) ^ 2
                   + (rowCombine (clumpWeights z zlow zhigh).1
                      (clumpWeights z zlow zhigh).2 rl rh).c))
    ∧ (read_clumping ln pow10 z zlow zhigh rl rh ndens).1
        = List.zipWith (· * ·) ndens
            (read_clumping ln pow10 z zlow zhigh rl rh ndens).2 := by
  refine ⟨rfl, ?_, rfl, rfl⟩
  have hd : zhigh - zlow ≠ 0 := sub_ne_zero.mpr hz
  show (z - zlow) / (zhigh - zlow) + (zhigh - z) / (zhigh - zlow) = 1
  rw [div_add_div_same]
  rw [show z - zlow + (zhigh - z) = zhigh - zlow by ring]
  exact div_self hd

/-- C5 witness: the clumping computation at `z = 7`, knots `(6, 8)`,
rows `(1,2,3)` and `(4,5,6)`, density `[1, 3]`, with `ln` and `10^` both
instantiated to the identity. -/
theorem C5_read_clumping_witness :
    clumpWeights 7 6 8 = ((7 - 6) / (8 - 6), (8 - 7) / (8 - 6))
    ∧ (clumpWeights 7 6 8).1 + (clumpWeights 7 6 8).2 = 1
    ∧ (read_clumping id id 7 6 8 ⟨1, 2, 3⟩ ⟨4, 5, 6⟩ [1, 3]).2
        = [1, 3].map (fun d =>
            id ((rowCombine (clumpWeights 7 6 8).1 (clumpWeights 7 6 8).2
                  ⟨1, 2, 3⟩ ⟨4, 5, 6⟩).a * id (1 + d / npMean [1, 3]) ^ 2
                + (rowCombine (clumpWeights 7 6 8).1 (clumpWeights 7 6 8).2
                  ⟨1, 2, 3⟩ ⟨4, 5, 6⟩).b * id (1 + d / npMean [1, 3]) ^ 2
                + (rowCombine (clumpWeights 7 6 8).1 (clumpWeights 7 6 8).2
                  ⟨1, 2, 3⟩ ⟨4, 5, 6⟩).c))
    ∧ (read_clumping id id 7 6 8 ⟨1, 2, 3⟩ ⟨4, 5, 6⟩ [1, 3]).1
        = List.zipWith (· * ·) [1, 3]
            (read_clumping id id 7 6 8 ⟨1, 2, 3⟩ ⟨4, 5, 6⟩ [1, 3]).2 :=
  C5_read_clumping id id 7 6 8 ⟨1, 2, 3⟩ ⟨4, 5, 6⟩ [1, 3] (by norm_num)

/-! ## _redshift_init and _material_init

From `c2ray_fstar.py` lines 243-287.  `get_redshifts_from_output`,
`find_bins` and the file readers (`t2c.read_cbin`, `np.load`) live
outside the provided sources and are abstracted: the output redshifts
and the file contents are parameters, and `find_bins` is an abstract
bracketing function of which only the use pattern matters here.  A
dense grid field is a function from flat cell index to value. -/

/-- A dense grid field. -/
abbrev Field := ℕ → ℚ

/-- `np.min` over a list of redshifts (`None` on the empty list, where
numpy would raise). -/
def npMinList : List ℚ → Option ℚ
  | [] => none
  | x :: xs => some (xs.foldl min x)

/-- The resume branch of `_redshift_init`: `self.zred` is the minimum
redshift among the existing outputs, and `self.prev_zdens` and
`self.prev_zsourc` are the second components of `find_bins` of that
redshift against the density and source redshift tables
independently. -/
def redshiftInitResume (outputs zredDensity zredSources : List ℚ)
    (findBins : ℚ → List ℚ → ℚ × ℚ) : Option (ℚ × ℚ × ℚ) :=
  match npMinList outputs with
  | none => none
  | some zred =>
      some (zred, (findBins zred zredDensity).2, (findBins zred zredSources).2)

lemma foldl_min_mem (xs : List ℚ) :
    ∀ x : ℚ, xs.foldl min x ∈ x :: xs := by
  induction xs with
  | nil => intro x; simp
  | cons y ys ih =>
      intro x
      rw [List.foldl_cons]
      rcases List.mem_cons.mp (ih (min x y)) with h | h
      · rw [h]
        rcases min_choice x y with he | he <;> rw [he]
        · exact List.mem_cons_self x (y :: ys)
        · exact List.mem_cons.mpr (Or.inr (List.mem_cons_self y ys))
      · exact List.mem_cons.mpr (Or.inr (List.mem_cons.mpr (Or.inr h)))

lemma foldl_min_le_init (xs : List ℚ) : ∀ x : ℚ, xs.foldl min x ≤ x := by
  induction xs with
  | nil => intro x; simp
  | cons z zs ih =>
      intro x
      rw [List.foldl_cons]
      exact le_trans (ih (min x z)) (min_le_left x z)

lemma foldl_min_le (xs : List ℚ) :
    ∀ x : ℚ, ∀ y ∈ x :: xs, xs.foldl min x ≤ y := by
  induction xs with
  | nil =>
      intro x y hy
      rw [List.mem_singleton] at hy
      simp [hy]
  | cons z zs ih =>
      intro x y hy
      rw [List.foldl_cons]
      rcases List.mem_cons.mp hy with rfl | hy'
      · exact le_trans (foldl_min_le_init zs (min y z)) (min_le_left y z)
      · rcases List.mem_cons.mp hy' with rfl | hy''
        · exact le_trans (foldl_min_le_init zs (min x y)) (min_le_right x y)
        · exact ih (min x z) y (List.mem_cons.mpr (Or.inr hy''))

/-- The fields `_material_init` leaves on the simulation object; a
Python attribute that is never assigned, or assigned `None`, is a
`none`. -/
structure MaterialFields where
  ndens : Option Field
  xh : Option Field
  phi_ion : Option Field
  temp : Field

/-- The `read_density` method (lines 183-199): it stores the computed
density field into `self.ndens` and, having no `return` statement,
returns `None`.  The pair is (stored field, Python return value). -/
def readDensityMethod (computedNdens : Field) : Field × Option Field :=
  (computedNdens, none)

/-- The resume branch of `_material_init`:
`self.ndens = self.read_density(...)` — the call stores the computed
field, then the assignment overwrites `self.ndens` with the method's
`None` return value; `self.xh` and `self.phi_ion` are read from the
prior outputs dispatched on the extension (`.dat` via `t2c.read_cbin`,
`.npy` via `np.load`, nothing otherwise); `self.temp` is
`temp0 * np.ones(self.shape)`. -/
def materialInitResume (computedNdens : Field) (ext : String)
    (datXh datPhi npyXh npyPhi : Field) (temp0 : ℚ) : MaterialFields :=
  let rd := readDensityMethod computedNdens
  { ndens := rd.2
  , xh := if ext = ".dat" then some datXh
          else if ext = ".npy" then some npyXh else none
  , phi_ion := if ext = ".dat" then some datPhi
               else if ext = ".npy" then some npyPhi else none
  , temp := fun _ => temp0 }

/-- C6: the restart redshift is the minimum among the output redshifts
and is bracketed against the two tables independently, ionization
fraction and photoionization rate are dispatched on the file extension,
and temperature is reinitialized to `temp0` — but the density field is
NOT reconstructed: `self.ndens = self.read_density(...)` assigns the
method's `None` return value, discarding the field the method had
stored. -/
theorem C6_resume_density_lost (computedNdens : Field) (ext : String)
    (datXh datPhi npyXh npyPhi : Field) (temp0 : ℚ) (z0 : ℚ) (zs : List ℚ)
    (zredDensity zredSources : List ℚ) (findBins : ℚ → List ℚ → ℚ × ℚ) :
    (∃ m, npMinList (z0 :: zs) = some m ∧ m ∈ z0 :: zs ∧ ∀ y ∈ z0 :: zs, m ≤ y)
    ∧ redshiftInitResume (z0 :: zs) zredDensity zredSources findBins
        = some (zs.foldl min z0, (findBins (zs.foldl min z0) zredDensity).2,
                (findBins (zs.foldl min z0) zredSources).2)
    ∧ (materialInitResume computedNdens ext datXh datPhi npyXh npyPhi temp0).ndens
        = none
    ∧ (ext = ".dat" →
        (materialInitResume computedNdens ext datXh datPhi npyXh npyPhi temp0).xh
          = some datXh
        ∧ (materialInitResume computedNdens ext datXh datPhi npyXh npyPhi
            temp0).phi_ion = some datPhi)
    ∧ (ext = ".npy" →
        (materialInitResume computedNdens ext datXh datPhi npyXh npyPhi temp0).xh
          = some npyXh
        ∧ (materialInitResume computedNdens ext datXh datPhi npyXh npyPhi
            temp0).phi_ion = some npyPhi)
    ∧ (∀ i, (materialInitResume computedNdens ext datXh datPhi npyXh npyPhi
        temp0).temp i = temp0) := by
  refine ⟨⟨zs.foldl min z0, rfl, foldl_min_mem zs z0, foldl_min_le zs z0⟩,
    rfl, rfl, ?_, ?_, fun i => rfl⟩
  · intro h
    have hne : (".dat" : String) ≠ ".npy" := by decide
    constructor <;> simp [materialInitResume, h]
  · intro h
    have hne : (".npy" : String) ≠ ".dat" := by decide
    constructor <;> simp [materialInitResume, h, hne]

/-! ## _material_init, fresh branch

From `c2ray_fstar.py` lines 279-287:
`self.ndens = avg_dens * np.empty(self.shape)` — `np.empty` is
uninitialized memory, modelled as an arbitrary field `emptyMem` —
while `self.xh = xh0 * np.ones(...)`, `self.temp = temp0 * np.ones(...)`
and `self.phi_ion = np.zeros(...)`. -/

/-- The fields written by the fresh (non-resume) branch of
`_material_init`, in source order (ndens, xh, temp, phi_ion). -/
structure FreshFields where
  ndens : Field
  xh : Field
  temp : Field
  phi_ion : Field

/-- The fresh branch of `_material_init`. -/
def materialInitFresh (xh0 temp0 avg_dens : ℚ) (emptyMem : Field) : FreshFields :=
  { ndens := fun i => avg_dens * emptyMem i
  , xh := fun _ => xh0
  , temp := fun _ => temp0
  , phi_ion := fun _ => 0 }

/-- C9: after a fresh `_material_init` every cell has `xh = xh0`,
`temp = temp0` and `phi_ion = 0`, but `ndens` is `avg_dens` times the
content of an uninitialized `np.empty` buffer, so it need not equal
`avg_dens`: with `avg_dens = 1` and a buffer holding `2`, the cell
value is `2 ≠ 1`. -/
theorem C9_fresh_init_ndens_uninitialized :
    (∀ xh0 temp0 avg_dens : ℚ, ∀ emptyMem : Field, ∀ i : ℕ,
        (materialInitFresh xh0 temp0 avg_dens emptyMem).xh i = xh0
      ∧ (materialInitFresh xh0 temp0 avg_dens emptyMem).temp i = temp0
      ∧ (materialInitFresh xh0 temp0 avg_dens emptyMem).phi_ion i = 0
      ∧ (materialInitFresh xh0 temp0 avg_dens emptyMem).ndens i
          = avg_dens * emptyMem i)
    ∧ (materialInitFresh 0 0 1 (fun _ => 2)).ndens 0 ≠ 1 := by
  refine ⟨fun xh0 temp0 avg_dens emptyMem i => ⟨rfl, rfl, rfl, rfl⟩, ?_⟩
  show (1 : ℚ) * 2 ≠ 1
  norm_num

/-! ## _sources_init and the Nion access in ionizing_flux

From `c2ray_fstar.py` lines 289-316 and line 133.  `_sources_init`
branches on `self._ld['Sources']['fstar_kind']` with exact string
comparison: only the `'dpl'` branch assigns `self.fstar_dpl` (and
`self.acc_model`, `self.alph_h`); the `'fgamma'` branch assigns
`self.fgamma_hm` / `self.fgamma_lm`; any other kind assigns nothing.
Line 133 of `ionizing_flux` reads `self.fstar_dpl['Nion']`
unconditionally. -/

/-- The double-power-law parameter dictionary `self.fstar_dpl`. -/
structure DplParams where
  Nion : ℚ
  f0 : ℚ
  Mt : ℚ
  Mp : ℚ
  g1 : ℚ
  g2 : ℚ
  g3 : ℚ
  g4 : ℚ
  f0_esc : ℚ
  Mp_esc : ℚ
  al_esc : ℚ
deriving DecidableEq, Repr

/-- The `Sources` section of the parameter file `self._ld`. -/
structure SourcesLd where
  fstar_kind : String
  fgamma_hm : ℚ
  fgamma_lm : ℚ
  Nion : ℚ
  f0 : ℚ
  Mt : ℚ
  Mp : ℚ
  g1 : ℚ
  g2 : ℚ
  g3 : ℚ
  g4 : ℚ
  f0_esc : ℚ
  Mp_esc : ℚ
  al_esc : ℚ
  accretion_model : String
  alpha_h : ℚ

/-- The attributes `_sources_init` may set on the simulation object
(`none` = attribute never assigned). -/
structure SourcesConfig where
  fstar_kind : String
  fgamma_hm : Option ℚ
  fgamma_lm : Option ℚ
  fstar_dpl : Option DplParams
  acc_model : Option String
  alph_h : Option ℚ

/-- `_sources_init`: exact-match branch on `fstar_kind`. -/
def sourcesInit (ld : SourcesLd) : SourcesConfig :=
  if ld.fstar_kind = "fgamma" then
    { fstar_kind := ld.fstar_kind
    , fgamma_hm := some ld.fgamma_hm, fgamma_lm := some ld.fgamma_lm
    , fstar_dpl := none, acc_model := none, alph_h := none }
  else if ld.fstar_kind = "dpl" then
    { fstar_kind := ld.fstar_kind
    , fgamma_hm := none, fgamma_lm := none
    , fstar_dpl := some ⟨ld.Nion, ld.f0, ld.Mt, ld.Mp, ld.g1, ld.g2, ld.g3,
        ld.g4, ld.f0_esc, ld.Mp_esc, ld.al_esc⟩
    , acc_model := some ld.accretion_model, alph_h := some ld.alpha_h }
  else
    { fstar_kind := ld.fstar_kind
    , fgamma_hm := none, fgamma_lm := none
    , fstar_dpl := none, acc_model := none, alph_h := none }

/-- The attribute access `self.fstar_dpl['Nion']` performed by the flux
normalization (line 133): `AttributeError` when `_sources_init` never
assigned `self.fstar_dpl`. -/
def fluxNionAccess (cfg : SourcesConfig) : Except PyExc ℚ :=
  match cfg.fstar_dpl with
  | some p => .ok p.Nion
  | none => .error .attributeError

/-- C10: `_sources_init` defines `self.fstar_dpl` exactly when
`fstar_kind = "dpl"`, and under that precondition the unconditional
`self.fstar_dpl['Nion']` access in the flux normalization succeeds and
yields the configured `Nion`. -/
lemma sourcesInit_fstar_dpl (ld : SourcesLd) :
    (sourcesInit ld).fstar_dpl =
      if ld.fstar_kind = "dpl" then
        some ⟨ld.Nion, ld.f0, ld.Mt, ld.Mp, ld.g1, ld.g2, ld.g3, ld.g4,
          ld.f0_esc, ld.Mp_esc, ld.al_esc⟩
      else none := by
  by_cases hf : ld.fstar_kind = "fgamma"
  · have hd : ld.fstar_kind ≠ "dpl" := by rw [hf]; decide
    simp [sourcesInit, hf, hd]
  · by_cases hd : ld.fstar_kind = "dpl"
    · simp [sourcesInit, hf, hd]
    · simp [sourcesInit, hf, hd]

theorem C10_fstar_dpl_defined_iff_dpl (ld : SourcesLd) :
    ((sourcesInit ld).fstar_dpl.isSome ↔ ld.fstar_kind = "dpl")
    ∧ (ld.fstar_kind = "dpl" →
        fluxNionAccess (sourcesInit ld) = .ok ld.Nion) := by
  constructor
  · rw [sourcesInit_fstar_dpl]
    by_cases hd : ld.fstar_kind = "dpl" <;> simp [hd]
  · intro hd
    have h := sourcesInit_fstar_dpl ld
    rw [if_pos hd] at h
    simp [fluxNionAccess, h]

/-- C10 witness: with a "dpl" parameter file the Nion access succeeds. -/
theorem C10_fstar_dpl_defined_iff_dpl_witness :
    ((sourcesInit ⟨"dpl", 0, 0, 7, 0, 0, 0, 0, 0, 0, 0, 0, 0, 0, "exp",
        1⟩).fstar_dpl.isSome ↔ ("dpl" : String) = "dpl")
    ∧ (("dpl" : String) = "dpl" →
        fluxNionAccess (sourcesInit ⟨"dpl", 0, 0, 7, 0, 0, 0, 0, 0, 0, 0, 0, 0,
          0, "exp", 1⟩) = .ok 7) :=
  C10_fstar_dpl_defined_iff_dpl
    ⟨"dpl", 0, 0, 7, 0, 0, 0, 0, 0, 0, 0, 0, 0, 0, "exp", 1⟩

end PyC2Ray
